import Mathlib

/-!
Shallow embedding of the PixelSqueeze image-compression pipeline
(src/main.rs).  Pure decision logic (the JPEG pre-flight heuristic, the
savings guard, status classification, statistics aggregation, quality
validation and the resize-dimension computation) is translated into Lean
functions; the external effects (filesystem metadata, image decoding and
encoding) are supplied as fields of a `FileInfo` record: the byte size the
encoder happens to produce for a file is the field `encodedSize`, and the
possible failures of the external calls are Boolean error flags.  Rust
`f64`/`f32` arithmetic is modelled by exact rational arithmetic (`ℚ`);
`u64`/`u32`/`u8` values are modelled as `ℕ`, with Rust's `saturating_sub`
becoming truncated `ℕ` subtraction.
-/

namespace PixelSqueeze

/-- Output format (`enum OutputFormat` in src/main.rs). -/
inductive OutputFormat where
  | jpeg
  | png
  | webp
deriving DecidableEq, Repr

/-- The configuration shared by all workers (`struct Args`, minus the
input/output paths and the recursive flag, which only feed file discovery).
`quality` is a `u8` in Rust, modelled as `ℕ`; `min_savings` is an `f64`,
modelled as `ℚ`. -/
structure Args where
  quality : ℕ
  minSavings : ℚ
  format : OutputFormat
  maxWidth : Option ℕ
  maxHeight : Option ℕ
deriving DecidableEq, Repr

/-- The externally observable facts about one input file: its metadata size,
its extension, its decoded dimensions, whether each external call fails, and
the byte size the encoder produces when it runs.  `heuristicErr` covers a
failure of the metadata read or decode inside
`estimate_jpeg_needs_compression`; `decodeErr` a failure of the main
`image::open`; `encodeErr` a failure of encoding, of the output-file write,
or of the metadata read of the written output. -/
structure FileInfo where
  filename : String
  size : ℕ
  ext : Option String
  width : ℕ
  height : ℕ
  heuristicErr : Bool
  decodeErr : Bool
  encodeErr : Bool
  encodedSize : ℕ
deriving DecidableEq, Repr

/-- ASCII lower-casing of one character, the effect of Rust's
`to_lowercase` on the extension characters relevant here. -/
def lowerChar (c : Char) : Char :=
  if 65 ≤ c.toNat ∧ c.toNat ≤ 90 then Char.ofNat (c.toNat + 32) else c

/-- ASCII lower-casing of a string (Rust `str::to_lowercase`; the Unicode
cases it also folds cannot produce the strings compared against here). -/
def lowerString (s : String) : String := ⟨s.data.map lowerChar⟩

/-- Does the extension match jpg/jpeg case-insensitively (the
`matches!(ext_str.as_str(), "jpg" | "jpeg")` test after `to_lowercase` in
`compress_image`)? -/
def isJpegExt (e : Option String) : Bool :=
  match e with
  | some s => lowerString s = ("jpg" : String) ∨ lowerString s = ("jpeg" : String)
  | none => false

/-- The coarse quality estimate of `estimate_jpeg_needs_compression`
(src/main.rs lines 274-303): bytes-per-pixel above 1.5 maps to 85, above
1.0 to 75, above 0.5 to 65, otherwise 50.  The `pixels = 0` branch mirrors
`f64` division by zero: a positive size gives infinity (above every
threshold, hence 85), a zero size gives NaN (below every threshold,
hence 50). -/
def estimatedQuality (fileSize pixels : ℕ) : ℕ :=
  if pixels = 0 then (if fileSize = 0 then 50 else 85)
  else
    let bpp : ℚ := (fileSize : ℚ) / (pixels : ℚ)
    if bpp > 3 / 2 then 85
    else if bpp > 1 then 75
    else if bpp > 1 / 2 then 65
    else 50

/-- The Boolean returned by `estimate_jpeg_needs_compression`: re-encode
only when the target quality is more than 10 points below the estimated
source quality (`target_quality < estimated_quality - 10`). -/
def estimateJpegNeedsCompression (fileSize pixels targetQuality : ℕ) : Bool :=
  targetQuality < estimatedQuality fileSize pixels - 10

/-- The savings percentage as `compress_image` and `main` compute it
(src/main.rs lines 403-409 and 169-176): `saturating_sub` then division,
0 when the original size is 0.  Because of `saturating_sub` the value is
never negative. -/
def savingsPercent (originalSize compressedSize : ℕ) : ℚ :=
  if originalSize = 0 then 0
  else ((originalSize - compressedSize : ℕ) : ℚ) / (originalSize : ℚ) * 100

/-- Status tags assigned in `main` (src/main.rs lines 178-186); the Rust
code uses the strings "Skipped", "Compressed", "Enlarged", "No change". -/
inductive Status where
  | skipped
  | compressed
  | enlarged
  | noChange
deriving DecidableEq, Repr

/-- The classification in `main`: Skipped when the skip flag is set, else
Compressed / Enlarged / No change by the sign of the savings percent. -/
def statusFor (originalSize compressedSize : ℕ) (skipped : Bool) : Status :=
  if skipped then Status.skipped
  else if savingsPercent originalSize compressedSize > 0 then Status.compressed
  else if savingsPercent originalSize compressedSize < 0 then Status.enlarged
  else Status.noChange

/-- The outcome of `compress_image` for one file.  The Rust function
returns `(original_size, compressed_size, skipped)`; the two extra fields
record its filesystem effects: `wroteOutput` is true when the encoder wrote
the output file, `removedOutput` when the savings guard then removed it. -/
structure CompressOutcome where
  originalSize : ℕ
  compressedSize : ℕ
  skipped : Bool
  wroteOutput : Bool
  removedOutput : Bool
deriving DecidableEq, Repr

/-- Function `compress_image` (src/main.rs lines 305-418).  Control flow, in source
order: for a jpg/jpeg extension the quality-estimation heuristic runs first
(its failure aborts the file with `?`); a negative heuristic combined with a
JPEG target returns the pre-flight skip `(original, original, true)`;
otherwise the image is decoded, resized and encoded (failures abort the
file), and the savings guard removes the artifact and returns
`(original, original, true)` exactly when the savings percent is below the
threshold and the compressed size is at least the original size. -/
def compressImage (args : Args) (f : FileInfo) : Except String CompressOutcome :=
  if isJpegExt f.ext = true ∧ f.heuristicErr = true then
    Except.error ("estimate failed")
  else
    let shouldCompress : Bool :=
      if isJpegExt f.ext = true then
        estimateJpegNeedsCompression f.size (f.width * f.height) args.quality
      else true
    if shouldCompress = false ∧ args.format = OutputFormat.jpeg then
      Except.ok ⟨f.size, f.size, true, false, false⟩
    else if f.decodeErr = true then
      Except.error ("failed to open image")
    else if f.encodeErr = true then
      Except.error ("failed to encode image")
    else if savingsPercent f.size f.encodedSize < args.minSavings ∧
        f.size ≤ f.encodedSize then
      Except.ok ⟨f.size, f.size, true, true, true⟩
    else
      Except.ok ⟨f.size, f.encodedSize, false, true, false⟩

/-- Per-file record (`struct FileResult`). -/
structure FileResult where
  filename : String
  originalSize : ℕ
  compressedSize : ℕ
  savingsPercent : ℚ
  status : Status
  skipped : Bool
deriving DecidableEq, Repr

/-- The `FileResult` that `main` builds from one `compress_image` success
(src/main.rs lines 169-195). -/
def mkFileResult (filename : String) (originalSize compressedSize : ℕ)
    (skipped : Bool) : FileResult :=
  ⟨filename, originalSize, compressedSize,
    savingsPercent originalSize compressedSize,
    statusFor originalSize compressedSize skipped, skipped⟩

/-- Run accumulator (`struct CompressionStats`). -/
structure CompressionStats where
  filesProcessed : ℕ
  originalSize : ℕ
  compressedSize : ℕ
  errors : List String
  fileResults : List FileResult
deriving DecidableEq, Repr

/-- Constructor `CompressionStats::new`. -/
def CompressionStats.new : CompressionStats := ⟨0, 0, 0, [], []⟩

/-- Method `CompressionStats::add_file_result` (src/main.rs lines 111-116). -/
def CompressionStats.addFileResult (s : CompressionStats) (r : FileResult) :
    CompressionStats :=
  { s with
    filesProcessed := s.filesProcessed + 1
    originalSize := s.originalSize + r.originalSize
    compressedSize := s.compressedSize + r.compressedSize
    fileResults := s.fileResults ++ [r] }

/-- Folding a list of per-file results into fresh statistics, one
`add_file_result` per element. -/
def foldResults (rs : List FileResult) : CompressionStats :=
  rs.foldl CompressionStats.addFileResult CompressionStats.new

/-- One worker step of `main`'s parallel loop: a success is recorded with
`add_file_result`, a failure is appended to the error list
(src/main.rs lines 165-207).  The parallel completion order is modelled as
the list order; the claims below do not depend on it. -/
def recordFile (args : Args) (s : CompressionStats) (f : FileInfo) :
    CompressionStats :=
  match compressImage args f with
  | Except.ok out =>
      s.addFileResult
        (mkFileResult f.filename out.originalSize out.compressedSize out.skipped)
  | Except.error e =>
      { s with errors := s.errors ++ [f.filename ++ (": " : String) ++ e] }

/-- The run boundary of `main` (src/main.rs lines 119-213): quality is
validated once, before the output directory is created and before any file
is processed; then the directory is created (`mkdirErr` models its
failure); then every file is processed. -/
def runMain (args : Args) (mkdirErr : Bool) (files : List FileInfo) :
    Except String CompressionStats :=
  if args.quality = 0 ∨ args.quality > 100 then
    Except.error ("Quality must be between 1 and 100")
  else if mkdirErr = true then
    Except.error ("Failed to create output directory")
  else
    Except.ok (files.foldl (recordFile args) CompressionStats.new)

/-- Modelled from the spec: the glossary's savings percent,
`(original_size - final_size) / original_size * 100`, a signed quantity
that is negative when the result is larger than the input.  Stated over the
spec's words (true subtraction), to be compared with the source's
`savingsPercent` (saturating subtraction). -/
def specSavingsPercent (originalSize compressedSize : ℕ) : ℚ :=
  if originalSize = 0 then 0
  else ((originalSize : ℚ) - (compressedSize : ℚ)) / (originalSize : ℚ) * 100

/-! ## Helper lemmas -/

theorem estimate_eq_false_iff (fileSize pixels targetQuality : ℕ) :
    estimateJpegNeedsCompression fileSize pixels targetQuality = false ↔
      ¬(targetQuality < estimatedQuality fileSize pixels - 10) := by
  simp [estimateJpegNeedsCompression]

theorem statusFor_eq_skipped_iff (o c : ℕ) (sk : Bool) :
    statusFor o c sk = Status.skipped ↔ sk = true := by
  unfold statusFor
  split_ifs with h1 h2 h3 <;> simp_all

theorem isJpegExt_jpg : isJpegExt (some ("jpg" : String)) = true := by decide

theorem isJpegExt_upperJPG : isJpegExt (some ("JPG" : String)) = true := by
  decide

theorem isJpegExt_png : isJpegExt (some ("png" : String)) = false := by decide

/-- Branch classification of `compressImage` successes: a success is the
pre-flight skip, the savings-guard skip (with its guard condition), or the
accepted artifact (with the guard condition false). -/
theorem compressImage_ok_shape (args : Args) (f : FileInfo)
    (out : CompressOutcome) (hok : compressImage args f = Except.ok out) :
    out = ⟨f.size, f.size, true, false, false⟩ ∨
    (out = ⟨f.size, f.size, true, true, true⟩ ∧
      savingsPercent f.size f.encodedSize < args.minSavings ∧
      f.size ≤ f.encodedSize) ∨
    (out = ⟨f.size, f.encodedSize, false, true, false⟩ ∧
      ¬(savingsPercent f.size f.encodedSize < args.minSavings ∧
        f.size ≤ f.encodedSize)) := by
  unfold compressImage at hok
  by_cases h1 : isJpegExt f.ext = true ∧ f.heuristicErr = true
  · rw [if_pos h1] at hok; exact absurd hok (by simp)
  rw [if_neg h1] at hok
  by_cases h2 :
      (if isJpegExt f.ext = true then
        estimateJpegNeedsCompression f.size (f.width * f.height) args.quality
      else true) = false ∧ args.format = OutputFormat.jpeg
  · rw [if_pos h2] at hok
    simp only [Except.ok.injEq] at hok
    exact Or.inl hok.symm
  rw [if_neg h2] at hok
  by_cases h3 : f.decodeErr = true
  · rw [if_pos h3] at hok; exact absurd hok (by simp)
  rw [if_neg h3] at hok
  by_cases h4 : f.encodeErr = true
  · rw [if_pos h4] at hok; exact absurd hok (by simp)
  rw [if_neg h4] at hok
  by_cases h5 : savingsPercent f.size f.encodedSize < args.minSavings ∧
      f.size ≤ f.encodedSize
  · rw [if_pos h5] at hok
    simp only [Except.ok.injEq] at hok
    exact Or.inr (Or.inl ⟨hok.symm, h5⟩)
  · rw [if_neg h5] at hok
    simp only [Except.ok.injEq] at hok
    exact Or.inr (Or.inr ⟨hok.symm, h5⟩)

/-- Evaluation of `compressImage` on a 100-byte extension-less file whose
encoder output is 120 bytes, at the default configuration: the savings
guard removes the artifact. -/
theorem compressImage_eval_guard :
    compressImage ⟨65, 5, OutputFormat.jpeg, none, none⟩
        ⟨("b" : String), 100, none, 10, 10, false, false, false, 120⟩ =
      Except.ok ⟨100, 100, true, true, true⟩ := by
  unfold compressImage
  norm_num [isJpegExt, savingsPercent]

/-- Evaluation of `compressImage` on a 100-byte jpg file of 10 x 10 pixels
(1.0 byte per pixel, estimated quality 65) at target quality 65: the
pre-flight heuristic skips it. -/
theorem compressImage_eval_preflight :
    compressImage ⟨65, 5, OutputFormat.jpeg, none, none⟩
        ⟨("a.jpg" : String), 100, some ("jpg" : String), 10, 10,
          false, false, false, 90⟩ =
      Except.ok ⟨100, 100, true, false, false⟩ := by
  unfold compressImage
  simp only [isJpegExt_jpg]
  norm_num [estimateJpegNeedsCompression, estimatedQuality]

/-! ## Claims -/

/-- C1.  Savings Guard skip law: for every successfully encoded file
(`wroteOutput`), if the realized savings percent is strictly below the
minimum-savings threshold and the compressed size is at least the original
size, then the written output file is removed and the file is reported
unchanged: status Skipped and final size equal to original size. -/
theorem savings_guard_skip_law (args : Args) (f : FileInfo)
    (out : CompressOutcome) (hok : compressImage args f = Except.ok out)
    (hw : out.wroteOutput = true)
    (hs : savingsPercent f.size f.encodedSize < args.minSavings)
    (hge : f.size ≤ f.encodedSize) :
    out.removedOutput = true ∧ out.skipped = true ∧
      out.compressedSize = out.originalSize ∧
      statusFor out.originalSize out.compressedSize out.skipped =
        Status.skipped := by
  rcases compressImage_ok_shape args f out hok with h | ⟨h, _⟩ | ⟨h, hc⟩
  · rw [h] at hw; exact absurd hw (by simp)
  · subst h; refine ⟨rfl, rfl, rfl, ?_⟩; simp [statusFor]
  · exact absurd ⟨hs, hge⟩ hc

/-- C1 witness: a 100-byte file whose encoder output is 120 bytes at the
default 5 percent threshold is removed and reported Skipped. -/
theorem savings_guard_skip_law_witness :
    (⟨100, 100, true, true, true⟩ : CompressOutcome).removedOutput = true ∧
      (⟨100, 100, true, true, true⟩ : CompressOutcome).skipped = true ∧
      (⟨100, 100, true, true, true⟩ : CompressOutcome).compressedSize =
        (⟨100, 100, true, true, true⟩ : CompressOutcome).originalSize ∧
      statusFor (⟨100, 100, true, true, true⟩ : CompressOutcome).originalSize
        (⟨100, 100, true, true, true⟩ : CompressOutcome).compressedSize
        (⟨100, 100, true, true, true⟩ : CompressOutcome).skipped =
        Status.skipped :=
  savings_guard_skip_law ⟨65, 5, OutputFormat.jpeg, none, none⟩
    ⟨("b" : String), 100, none, 10, 10, false, false, false, 120⟩
    ⟨100, 100, true, true, true⟩ compressImage_eval_guard rfl
    (by norm_num [savingsPercent]) (by norm_num)

/-- C2 counterexample: the scenario input (2000 x 1000 JPEG, 500000 bytes,
quality 65, JPEG target, min-savings 5) with an encoder that would produce
400000 bytes (at most 475000).  The claim predicts status Compressed; the
code pre-flight-skips the file (bytes-per-pixel 0.25 estimates source
quality 50, and 65 is not more than 10 below 50), so the status is Skipped,
not Compressed. -/
theorem threshold_scenario_cex :
    compressImage ⟨65, 5, OutputFormat.jpeg, none, none⟩
        ⟨("big.jpg" : String), 500000, some ("jpg" : String), 2000, 1000,
          false, false, false, 400000⟩ =
      Except.ok ⟨500000, 500000, true, false, false⟩ ∧
    statusFor 500000 500000 true ≠ Status.compressed := by
  constructor
  · unfold compressImage
    simp only [isJpegExt_jpg]
    norm_num [estimateJpegNeedsCompression, estimatedQuality]
  · simp [statusFor]

/-- C2 amended: on the scenario input the pre-flight heuristic fires before
any encoding, so for every encoder output size the outcome is the
pre-flight skip: status Skipped with final size 500000. -/
theorem threshold_scenario_amended (name : String) (enc : ℕ) :
    compressImage ⟨65, 5, OutputFormat.jpeg, none, none⟩
        ⟨name, 500000, some ("jpg" : String), 2000, 1000,
          false, false, false, enc⟩ =
      Except.ok ⟨500000, 500000, true, false, false⟩ ∧
    statusFor 500000 500000 true = Status.skipped := by
  constructor
  · unfold compressImage
    simp only [isJpegExt_jpg]
    norm_num [estimateJpegNeedsCompression, estimatedQuality]
  · simp [statusFor]

/-- C3 counterexample: a 100-byte PNG whose JPEG encoding is 160 bytes
(more than 50 percent larger) at threshold 0: the guard condition
`savings_percent < 0` is false (the saturating savings percent is 0), so
the artifact is kept as final output (size 160, nothing removed, no copy of
the original substituted) — contradicting the claimed discard with
`final_size == original_size`. -/
theorem anti_inflation_cex :
    compressImage ⟨65, 0, OutputFormat.jpeg, none, none⟩
        ⟨("a.png" : String), 100, some ("png" : String), 10, 10,
          false, false, false, 160⟩ =
      Except.ok ⟨100, 160, false, true, false⟩ ∧
    100 + 100 / 2 < 160 := by
  constructor
  · unfold compressImage
    simp only [isJpegExt_png]
    norm_num [savingsPercent]
  · norm_num

/-- C3 amended: there is no 50-percent anti-inflation branch and no
verbatim-copy substitution.  The only discard path is the savings guard:
whenever the guard removes the artifact the file is reported unchanged
(Skipped semantics, final size equal to original size), and whenever the
artifact survives the guard it is kept as the final output at the
encoder's size — even when it is more than 50 percent larger than the
original, which happens whenever the threshold is 0 or less. -/
theorem anti_inflation_amended (args : Args) (f : FileInfo)
    (out : CompressOutcome) (hok : compressImage args f = Except.ok out) :
    (out.removedOutput = true →
      out.skipped = true ∧ out.compressedSize = out.originalSize) ∧
    (out.wroteOutput = true → out.removedOutput = false →
      out.compressedSize = f.encodedSize) := by
  rcases compressImage_ok_shape args f out hok with h | ⟨h, _⟩ | ⟨h, _⟩ <;>
    subst h
  · exact ⟨fun hx => absurd hx (by simp), fun hx => absurd hx (by simp)⟩
  · exact ⟨fun _ => ⟨rfl, rfl⟩, fun _ hx => absurd hx (by simp)⟩
  · exact ⟨fun hx => absurd hx (by simp), fun _ _ => rfl⟩

/-- C3 amended witness: the guard-skip outcome of a 100-byte file with
120-byte encoder output at threshold 5. -/
theorem anti_inflation_amended_witness :
    ((⟨100, 100, true, true, true⟩ : CompressOutcome).removedOutput = true →
      (⟨100, 100, true, true, true⟩ : CompressOutcome).skipped = true ∧
        (⟨100, 100, true, true, true⟩ : CompressOutcome).compressedSize =
          (⟨100, 100, true, true, true⟩ : CompressOutcome).originalSize) ∧
    ((⟨100, 100, true, true, true⟩ : CompressOutcome).wroteOutput = true →
      (⟨100, 100, true, true, true⟩ : CompressOutcome).removedOutput = false →
      (⟨100, 100, true, true, true⟩ : CompressOutcome).compressedSize = 120) :=
  anti_inflation_amended ⟨65, 5, OutputFormat.jpeg, none, none⟩
    ⟨("b" : String), 100, none, 10, 10, false, false, false, 120⟩
    ⟨100, 100, true, true, true⟩ compressImage_eval_guard

/-- C4 code bug: at original size 100 and compressed size 150 the code's
savings percent is 0 (not the -50 required by the spec's formula, because
of `saturating_sub`) and the status classification is "No change", never
"Enlarged" — the code's own Enlarged branch (`savings < 0.0`) is
unreachable. -/
theorem savings_sign_code_bug :
    savingsPercent 100 150 = 0 ∧
    specSavingsPercent 100 150 = -50 ∧
    statusFor 100 150 false = Status.noChange ∧
    statusFor 100 150 false ≠ Status.enlarged := by
  refine ⟨by norm_num [savingsPercent], by norm_num [specSavingsPercent], ?_, ?_⟩
  · simp [statusFor, savingsPercent]
  · simp [statusFor, savingsPercent]

/-- C5.  JPEG pre-flight skip heuristic: for a jpg/jpeg input with JPEG
target format, the outcome is the pre-flight skip (skipped without any
encoding) exactly when the requested quality is not more than 10 points
below the quality estimated from the bytes-per-pixel ratio. -/
theorem jpeg_preflight_skip_iff (args : Args) (f : FileInfo)
    (out : CompressOutcome) (hext : isJpegExt f.ext = true)
    (hfmt : args.format = OutputFormat.jpeg)
    (hok : compressImage args f = Except.ok out) :
    (out.skipped = true ∧ out.wroteOutput = false) ↔
      ¬(args.quality <
        estimatedQuality f.size (f.width * f.height) - 10) := by
  unfold compressImage at hok
  rw [← estimate_eq_false_iff]
  by_cases he : f.heuristicErr = true
  · rw [if_pos ⟨hext, he⟩] at hok; exact absurd hok (by simp)
  · rw [if_neg (fun hc => he hc.2)] at hok
    rw [if_pos hext] at hok
    by_cases hb :
        estimateJpegNeedsCompression f.size (f.width * f.height)
          args.quality = false
    · rw [if_pos ⟨hb, hfmt⟩] at hok
      simp only [Except.ok.injEq] at hok
      subst hok
      simp [hb]
    · rw [if_neg (fun hc => hb hc.1)] at hok
      split_ifs at hok with h3 h4 h5 <;>
        simp only [Except.ok.injEq] at hok <;> subst hok <;> simp [hb]

/-- C5 witness: a 100-byte 10 x 10 jpg (estimated quality 65) at target
quality 65 is pre-flight-skipped, and indeed 65 is not below 65 - 10. -/
theorem jpeg_preflight_skip_iff_witness :
    ((⟨100, 100, true, false, false⟩ : CompressOutcome).skipped = true ∧
      (⟨100, 100, true, false, false⟩ : CompressOutcome).wroteOutput = false) ↔
      ¬(65 < estimatedQuality 100 (10 * 10) - 10) :=
  jpeg_preflight_skip_iff ⟨65, 5, OutputFormat.jpeg, none, none⟩
    ⟨("a.jpg" : String), 100, some ("jpg" : String), 10, 10,
      false, false, false, 90⟩
    ⟨100, 100, true, false, false⟩ (by decide) rfl
    compressImage_eval_preflight

/-- C6.  Aggregation invariant: after any sequence of
`add_file_result` insertions starting from `CompressionStats::new`,
`files_processed` equals the length of the result list and the aggregate
byte counters equal the sums of the per-file fields. -/
theorem stats_aggregation_invariant (rs : List FileResult) :
    (foldResults rs).filesProcessed = (foldResults rs).fileResults.length ∧
    (foldResults rs).originalSize =
      ((foldResults rs).fileResults.map FileResult.originalSize).sum ∧
    (foldResults rs).compressedSize =
      ((foldResults rs).fileResults.map FileResult.compressedSize).sum := by
  suffices h : ∀ (rs : List FileResult) (s : CompressionStats),
      s.filesProcessed = s.fileResults.length →
      s.originalSize = (s.fileResults.map FileResult.originalSize).sum →
      s.compressedSize = (s.fileResults.map FileResult.compressedSize).sum →
      (rs.foldl CompressionStats.addFileResult s).filesProcessed =
          (rs.foldl CompressionStats.addFileResult s).fileResults.length ∧
        (rs.foldl CompressionStats.addFileResult s).originalSize =
          ((rs.foldl CompressionStats.addFileResult s).fileResults.map
            FileResult.originalSize).sum ∧
        (rs.foldl CompressionStats.addFileResult s).compressedSize =
          ((rs.foldl CompressionStats.addFileResult s).fileResults.map
            FileResult.compressedSize).sum by
    exact h rs CompressionStats.new rfl rfl rfl
  intro rs
  induction rs with
  | nil => intro s h1 h2 h3; exact ⟨h1, h2, h3⟩
  | cons r rs ih =>
      intro s h1 h2 h3
      refine ih (s.addFileResult r) ?_ ?_ ?_ <;>
        simp [CompressionStats.addFileResult, h1, h2, h3]

/-- C7.  Skipped implies unchanged: every `compress_image` success whose
status is Skipped has its final size equal to its original size, whichever
skip path produced it. -/
theorem skipped_implies_unchanged (args : Args) (f : FileInfo)
    (out : CompressOutcome) (hok : compressImage args f = Except.ok out)
    (hst : statusFor out.originalSize out.compressedSize out.skipped =
      Status.skipped) :
    out.compressedSize = out.originalSize := by
  rw [statusFor_eq_skipped_iff] at hst
  rcases compressImage_ok_shape args f out hok with h | ⟨h, _⟩ | ⟨h, _⟩ <;>
    subst h
  · rfl
  · rfl
  · exact absurd hst (by simp)

/-- C7 witness: the pre-flight skip of a 100-byte jpg reports final size
equal to original size. -/
theorem skipped_implies_unchanged_witness :
    (⟨100, 100, true, false, false⟩ : CompressOutcome).compressedSize =
      (⟨100, 100, true, false, false⟩ : CompressOutcome).originalSize :=
  skipped_implies_unchanged ⟨65, 5, OutputFormat.jpeg, none, none⟩
    ⟨("a.jpg" : String), 100, some ("jpg" : String), 10, 10,
      false, false, false, 90⟩
    ⟨100, 100, true, false, false⟩ compressImage_eval_preflight
    (by simp [statusFor])

/-- C8.  Quality validation is fatal and precedes processing: an
out-of-range quality (0 or above 100) makes the run fail with the quality
error before the output directory is created (even if its creation would
also fail) and before any file is processed; any quality in 1..100 passes
the validation and the run proceeds to process every file. -/
theorem quality_validation_boundary (args : Args) (mkdirErr : Bool)
    (files : List FileInfo) :
    ((args.quality = 0 ∨ 100 < args.quality) →
      runMain args mkdirErr files =
        Except.error ("Quality must be between 1 and 100")) ∧
    (1 ≤ args.quality → args.quality ≤ 100 →
      runMain args false files =
        Except.ok (files.foldl (recordFile args) CompressionStats.new)) := by
  constructor
  · intro h
    unfold runMain
    rw [if_pos h]
  · intro h1 h2
    unfold runMain
    rw [if_neg (by omega), if_neg (by simp)]

/-- C8 witness: quality 0 aborts with the quality error even when directory
creation would fail too; quality 50 passes validation and processes the
(empty) file list. -/
theorem quality_validation_boundary_witness :
    runMain ⟨0, 5, OutputFormat.jpeg, none, none⟩ true [] =
      Except.error ("Quality must be between 1 and 100") ∧
    runMain ⟨50, 5, OutputFormat.jpeg, none, none⟩ false [] =
      Except.ok (List.foldl (recordFile ⟨50, 5, OutputFormat.jpeg, none, none⟩)
        CompressionStats.new []) :=
  ⟨(quality_validation_boundary ⟨0, 5, OutputFormat.jpeg, none, none⟩
      true []).1 (Or.inl rfl),
   (quality_validation_boundary ⟨50, 5, OutputFormat.jpeg, none, none⟩
      false []).2 (by norm_num) (by norm_num)⟩

/-- C10.  The jpg/jpeg heuristic runs regardless of the target format: its
failure aborts the file with a per-file error for every output format,
while an accepted outcome under a non-JPEG target always comes from an
actual encode (no pre-flight skip). -/
theorem heuristic_regardless_of_format (args : Args) (f : FileInfo) :
    (isJpegExt f.ext = true → f.heuristicErr = true →
      compressImage args f = Except.error ("estimate failed")) ∧
    (args.format ≠ OutputFormat.jpeg →
      ∀ out : CompressOutcome, compressImage args f = Except.ok out →
        out.wroteOutput = true) := by
  constructor
  · intro hext herr
    unfold compressImage
    rw [if_pos ⟨hext, herr⟩]
  · intro hfmt out hok
    unfold compressImage at hok
    by_cases h1 : isJpegExt f.ext = true ∧ f.heuristicErr = true
    · rw [if_pos h1] at hok; exact absurd hok (by simp)
    rw [if_neg h1] at hok
    rw [if_neg (fun hc => hfmt hc.2)] at hok
    by_cases h3 : f.decodeErr = true
    · rw [if_pos h3] at hok; exact absurd hok (by simp)
    rw [if_neg h3] at hok
    by_cases h4 : f.encodeErr = true
    · rw [if_pos h4] at hok; exact absurd hok (by simp)
    rw [if_neg h4] at hok
    by_cases h5 : savingsPercent f.size f.encodedSize < args.minSavings ∧
        f.size ≤ f.encodedSize
    · rw [if_pos h5] at hok
      simp only [Except.ok.injEq] at hok
      rw [← hok]
    · rw [if_neg h5] at hok
      simp only [Except.ok.injEq] at hok
      rw [← hok]

/-- C10 witness: a jpg file whose heuristic fails errors out under a PNG
target, and an extension-less file under a PNG target yields an encoded
outcome. -/
theorem heuristic_regardless_of_format_witness :
    compressImage ⟨65, 5, OutputFormat.png, none, none⟩
        ⟨("c.JPG" : String), 100, some ("JPG" : String), 10, 10,
          true, false, false, 90⟩ =
      Except.error ("estimate failed") ∧
    (⟨100, 100, true, true, true⟩ : CompressOutcome).wroteOutput = true :=
  ⟨(heuristic_regardless_of_format ⟨65, 5, OutputFormat.png, none, none⟩
      ⟨("c.JPG" : String), 100, some ("JPG" : String), 10, 10,
        true, false, false, 90⟩).1 (by decide) rfl,
   (heuristic_regardless_of_format ⟨65, 5, OutputFormat.png, none, none⟩
      ⟨("b" : String), 100, none, 10, 10, false, false, false, 120⟩).2
      (by decide) ⟨100, 100, true, true, true⟩
      (by
        unfold compressImage
        norm_num [isJpegExt, savingsPercent])⟩

/-! ## Resize decision (claim C9)

The repository calls `DynamicImage::resize` of the external image crate.
Its documented behaviour (`resize_dimensions` with `fill = false`) is
aspect-ratio-preserving scaling to the largest size that fits within the
requested bounds, computing the smaller of the two axis scale factors and
rounding each scaled axis half-away-from-zero with a floor of 1 pixel.
The crate's `f64` arithmetic and the caller's `f32` aspect computation are
modelled by exact rational arithmetic. -/

/-- Rounding half-away-from-zero of a non-negative rational to a natural
number, the `(x).round() as u64` step of the image crate's
`resize_dimensions`. -/
def qround (x : ℚ) : ℕ := (⌊x + 1 / 2⌋).toNat

/-- Modelled from the image crate's `resize_dimensions(width, height,
nwidth, nheight, fill = false)`, the dimension computation of
`DynamicImage::resize`: scale both axes by the smaller of `nwidth/width`
and `nheight/height`, round, and floor each axis at 1. -/
def resizeDimensions (w h nw nh : ℕ) : ℕ × ℕ :=
  (max (qround ((w : ℚ) * min ((nw : ℚ) / (w : ℚ)) ((nh : ℚ) / (h : ℚ)))) 1,
   max (qround ((h : ℚ) * min ((nw : ℚ) / (w : ℚ)) ((nh : ℚ) / (h : ℚ)))) 1)

/-- The resize decision of `compress_image` (src/main.rs lines 329-354):
with both bounds set, `resize(max_w, max_h)` is called unconditionally;
with exactly one bound set and the source exceeding it, the other target
dimension is computed from the `f32` aspect ratio and truncated (`as u32`),
and `resize` is called with that box; otherwise the image is left alone. -/
def computeResize (w h : ℕ) (maxW maxH : Option ℕ) : ℕ × ℕ :=
  match maxW, maxH with
  | some a, some b => resizeDimensions w h a b
  | some a, none =>
      if a < w then
        resizeDimensions w h a ((⌊(a : ℚ) * ((h : ℚ) / (w : ℚ))⌋).toNat)
      else (w, h)
  | none, some b =>
      if b < h then
        resizeDimensions w h ((⌊(b : ℚ) * ((w : ℚ) / (h : ℚ))⌋).toNat) b
      else (w, h)
  | none, none => (w, h)

theorem qround_eq (x : ℚ) (n : ℕ) (h1 : (n : ℚ) ≤ x + 1 / 2)
    (h2 : x + 1 / 2 < (n : ℚ) + 1) : qround x = n := by
  unfold qround
  have hf : ⌊x + 1 / 2⌋ = (n : ℤ) := by
    rw [Int.floor_eq_iff]
    constructor
    · exact_mod_cast h1
    · push_cast
      exact h2
  rw [hf, Int.toNat_natCast]

theorem qround_natCast (n : ℕ) : qround ((n : ℚ)) = n := by
  apply qround_eq
  · linarith
  · linarith

theorem qround_le_natCast (x : ℚ) (n : ℕ) (h : x ≤ (n : ℚ)) :
    qround x ≤ n := by
  unfold qround
  rw [Int.toNat_le]
  calc ⌊x + 1 / 2⌋ ≤ ⌊(n : ℚ) + 1 / 2⌋ := Int.floor_le_floor (by linarith)
    _ = (n : ℤ) := by
        rw [Int.floor_eq_iff]
        constructor
        · push_cast; linarith
        · push_cast; linarith

theorem resizeDimensions_fst_le (w h nw nh : ℕ) (hw : 0 < w)
    (hnw : 0 < nw) : (resizeDimensions w h nw nh).1 ≤ nw := by
  have hw0 : (0 : ℚ) < (w : ℚ) := by exact_mod_cast hw
  have hle : (w : ℚ) * min ((nw : ℚ) / (w : ℚ)) ((nh : ℚ) / (h : ℚ)) ≤
      (nw : ℚ) := by
    calc (w : ℚ) * min ((nw : ℚ) / (w : ℚ)) ((nh : ℚ) / (h : ℚ)) ≤
        (w : ℚ) * ((nw : ℚ) / (w : ℚ)) :=
          mul_le_mul_of_nonneg_left (min_le_left _ _) (le_of_lt hw0)
      _ = (nw : ℚ) := by field_simp
  exact Nat.max_le.mpr ⟨qround_le_natCast _ _ hle, hnw⟩

theorem resizeDimensions_snd_le (w h nw nh : ℕ) (hh : 0 < h)
    (hnh : 0 < nh) : (resizeDimensions w h nw nh).2 ≤ nh := by
  have hh0 : (0 : ℚ) < (h : ℚ) := by exact_mod_cast hh
  have hle : (h : ℚ) * min ((nw : ℚ) / (w : ℚ)) ((nh : ℚ) / (h : ℚ)) ≤
      (nh : ℚ) := by
    calc (h : ℚ) * min ((nw : ℚ) / (w : ℚ)) ((nh : ℚ) / (h : ℚ)) ≤
        (h : ℚ) * ((nh : ℚ) / (h : ℚ)) :=
          mul_le_mul_of_nonneg_left (min_le_right _ _) (le_of_lt hh0)
      _ = (nh : ℚ) := by field_simp
  exact Nat.max_le.mpr ⟨qround_le_natCast _ _ hle, hnh⟩

theorem resizeDimensions_exact (w h nw nh : ℕ) (hw : 0 < w) (hh : 0 < h)
    (hnw : 0 < nw) (hnh : 0 < nh) :
    (resizeDimensions w h nw nh).1 = nw ∨ (resizeDimensions w h nw nh).2 = nh := by
  have hw0 : ((w : ℚ)) ≠ 0 := by positivity
  have hh0 : ((h : ℚ)) ≠ 0 := by positivity
  rcases min_cases ((nw : ℚ) / (w : ℚ)) ((nh : ℚ) / (h : ℚ)) with
    ⟨hmin, _⟩ | ⟨hmin, _⟩
  · left
    unfold resizeDimensions
    simp only
    rw [hmin]
    have hx : (w : ℚ) * ((nw : ℚ) / (w : ℚ)) = (nw : ℚ) := by field_simp
    rw [hx, qround_natCast]
    exact Nat.max_eq_left hnw
  · right
    unfold resizeDimensions
    simp only
    rw [hmin]
    have hx : (h : ℚ) * ((nh : ℚ) / (h : ℚ)) = (nh : ℚ) := by field_simp
    rw [hx, qround_natCast]
    exact Nat.max_eq_left hnh

/-- C9 counterexample.  A 100 x 100 image with max-width 50 and max-height
25 is resized to 25 x 25 (aspect-preserving fit-within), not to the claimed
exact fit 50 x 25; and a 1000 x 999 image with only max-width 100 comes out
as 99 x 99 — the constrained axis misses the bound (truncation of the f32
aspect product followed by the fit-within resize). -/
theorem resize_decision_cex :
    computeResize 100 100 (some 50) (some 25) = (25, 25) ∧
    computeResize 1000 999 (some 100) none = (99, 99) ∧
    ((25, 25) : ℕ × ℕ) ≠ (50, 25) := by
  refine ⟨?_, ?_, by decide⟩
  · show resizeDimensions 100 100 50 25 = (25, 25)
    unfold resizeDimensions
    rw [min_eq_right (by norm_num)]
    have h1 : qround (((100 : ℕ) : ℚ) * (((25 : ℕ) : ℚ) / ((100 : ℕ) : ℚ))) = 25 := by
      apply qround_eq <;> norm_num
    rw [h1]
    decide
  · show (if 100 < 1000 then
        resizeDimensions 1000 999 100
          ((⌊((100 : ℕ) : ℚ) * (((999 : ℕ) : ℚ) / ((1000 : ℕ) : ℚ))⌋).toNat)
      else (1000, 999)) = (99, 99)
    rw [if_pos (by norm_num)]
    have ht : (⌊((100 : ℕ) : ℚ) * (((999 : ℕ) : ℚ) / ((1000 : ℕ) : ℚ))⌋).toNat = 99 := by
      have hf : ⌊((100 : ℕ) : ℚ) * (((999 : ℕ) : ℚ) / ((1000 : ℕ) : ℚ))⌋ = 99 := by
        rw [Int.floor_eq_iff]
        norm_num
      rw [hf]
      rfl
    rw [ht]
    unfold resizeDimensions
    rw [min_eq_right (by norm_num)]
    have h2 : qround (((1000 : ℕ) : ℚ) * (((99 : ℕ) : ℚ) / ((999 : ℕ) : ℚ))) = 99 := by
      apply qround_eq <;> norm_num
    have h3 : qround (((999 : ℕ) : ℚ) * (((99 : ℕ) : ℚ) / ((999 : ℕ) : ℚ))) = 99 := by
      apply qround_eq <;> norm_num
    rw [h2, h3]
    decide

/-- C9 amended.  The resize decision actually implemented: no bounds means
no resize; a single bound the source does not exceed means no resize (no
upscaling); with both bounds set the image is scaled aspect-preserving to
fit within both bounds, at least one axis meeting its bound exactly (never
stretched to exactly fit both); with a single exceeded bound the output
never exceeds that bound on the constrained axis, though it may fall short
of it by rounding. -/
theorem resize_decision_amended (w h a b : ℕ) (hw : 0 < w) (hh : 0 < h)
    (ha : 0 < a) (hb : 0 < b) :
    computeResize w h none none = (w, h) ∧
    (w ≤ a → computeResize w h (some a) none = (w, h)) ∧
    (h ≤ b → computeResize w h none (some b) = (w, h)) ∧
    ((computeResize w h (some a) (some b)).1 ≤ a ∧
      (computeResize w h (some a) (some b)).2 ≤ b ∧
      ((computeResize w h (some a) (some b)).1 = a ∨
        (computeResize w h (some a) (some b)).2 = b)) ∧
    (a < w → (computeResize w h (some a) none).1 ≤ a) ∧
    (b < h → (computeResize w h none (some b)).2 ≤ b) := by
  refine ⟨rfl, ?_, ?_, ⟨?_, ?_, ?_⟩, ?_, ?_⟩
  · intro hle
    show (if a < w then _ else (w, h)) = (w, h)
    rw [if_neg (not_lt.mpr hle)]
  · intro hle
    show (if b < h then _ else (w, h)) = (w, h)
    rw [if_neg (not_lt.mpr hle)]
  · exact resizeDimensions_fst_le w h a b hw ha
  · exact resizeDimensions_snd_le w h a b hh hb
  · exact resizeDimensions_exact w h a b hw hh ha hb
  · intro hlt
    show (if a < w then
        resizeDimensions w h a ((⌊(a : ℚ) * ((h : ℚ) / (w : ℚ))⌋).toNat)
      else (w, h)).1 ≤ a
    rw [if_pos hlt]
    exact resizeDimensions_fst_le w h a _ hw ha
  · intro hlt
    show (if b < h then
        resizeDimensions w h ((⌊(b : ℚ) * ((w : ℚ) / (h : ℚ))⌋).toNat) b
      else (w, h)).2 ≤ b
    rw [if_pos hlt]
    exact resizeDimensions_snd_le w h _ b hh hb

/-- C9 amended witness: the 100 x 100 image with bounds 50 and 25. -/
theorem resize_decision_amended_witness :
    computeResize 100 100 none none = (100, 100) ∧
    (100 ≤ 50 → computeResize 100 100 (some 50) none = (100, 100)) ∧
    (100 ≤ 25 → computeResize 100 100 none (some 25) = (100, 100)) ∧
    ((computeResize 100 100 (some 50) (some 25)).1 ≤ 50 ∧
      (computeResize 100 100 (some 50) (some 25)).2 ≤ 25 ∧
      ((computeResize 100 100 (some 50) (some 25)).1 = 50 ∨
        (computeResize 100 100 (some 50) (some 25)).2 = 25)) ∧
    (50 < 100 → (computeResize 100 100 (some 50) none).1 ≤ 50) ∧
    (25 < 100 → (computeResize 100 100 none (some 25)).2 ≤ 25) :=
  resize_decision_amended 100 100 50 25 (by norm_num) (by norm_num)
    (by norm_num) (by norm_num)

end PixelSqueeze
